import Mathlib

/-!
Verification of the polymarket-bot repository (src/bot.py, src/config.py).

The numeric core of the program is `calculate_new_bid` (src/bot.py lines
136-171), which works on Python `Decimal` values.  A finite decimal value is
modelled here as an integer coefficient together with a number of fractional
digits (`Dec`), mirroring `Decimal`'s coefficient/exponent representation for
the nonpositive exponents that occur on every price path of this program
(prices lie in [0, 1]; `str(float)` of such values and the venue's tick-size
strings all parse to decimals with nonpositive exponent).  The float inputs
`best_bid` and `max_price` are modelled by the exact decimal that
`Decimal(str(x))` produces from them, which is where every comparison in the
source happens; `Decimal` arithmetic on such values is exact, so `Dec`
operations below are value-exact translations of the corresponding
`Decimal` operations.
-/

/-- Finite decimal number: `val = coeff / 10 ^ frac`.  Models a Python
`Decimal` with coefficient `coeff` (sign included) and exponent `-frac`. -/
structure Dec where
  coeff : Int
  frac : Nat
deriving DecidableEq, Repr

/-- Rational value of a decimal. -/
def Dec.val (d : Dec) : ℚ := mkRat d.coeff (10 ^ d.frac)

theorem Dec.val_eq (d : Dec) : d.val = (d.coeff : ℚ) / (10 : ℚ) ^ d.frac := by
  rw [Dec.val, Rat.mkRat_eq_div]
  push_cast
  ring_nf

/-- Exact decimal addition (Python `Decimal.__add__`): rescale both operands
to the finer precision and add coefficients.  The result exponent is the
minimum of the operands' exponents, i.e. the maximum fractional length. -/
def Dec.add (a b : Dec) : Dec :=
  ⟨a.coeff * 10 ^ (max a.frac b.frac - a.frac) +
    b.coeff * 10 ^ (max a.frac b.frac - b.frac), max a.frac b.frac⟩

/-- Quantize to `f` fractional digits rounding toward zero: Python
`Decimal.quantize(t, rounding=ROUND_DOWN)` where `t` has exponent `-f`.
If the value already has at most `f` fractional digits it is rescaled
exactly; otherwise the coefficient is divided truncating toward zero
(`ROUND_DOWN` is truncation toward zero). -/
def Dec.quantize (d : Dec) (f : Nat) : Dec :=
  if d.frac ≤ f then ⟨d.coeff * 10 ^ (f - d.frac), f⟩
  else ⟨Int.tdiv d.coeff (10 ^ (d.frac - f)), f⟩

/-- Bid calculator, translated from `calculate_new_bid` in src/bot.py
lines 136-171.  `best_bid` and `max_price` stand for
`Decimal(str(best_bid))` and `Decimal(str(max_price))`; the unused local
`precision = tick_size.as_tuple().exponent` of line 156 is dropped.  The
source computes `new_bid = best_bid_decimal + tick_size`, quantizes it to
`tick_size`'s exponent with `ROUND_DOWN`, returns `None` when
`new_bid > max_price_decimal`, then `None` when
`best_bid_decimal >= max_price_decimal`, and otherwise returns `new_bid`. -/
def calculate_new_bid (best_bid : Dec) (tick_size : Dec) (max_price : Dec) :
    Option Dec :=
  let new_bid := best_bid.add tick_size
  let new_bid := new_bid.quantize tick_size.frac
  if max_price.val < new_bid.val then none
  else if max_price.val ≤ best_bid.val then none
  else some new_bid

/-- Best bid extraction, translated from `get_best_bid` in src/bot.py lines
94-116: `0.0` (the decimal `0` with one fractional digit, as produced by
`Decimal(str(0.0))`) when the book has no bids, otherwise the maximum of the
bid prices, scanning left to right and keeping the first maximum as Python
`max` does. -/
def get_best_bid (bids : List Dec) : Dec :=
  match bids with
  | [] => ⟨0, 1⟩
  | b :: rest => rest.foldl (fun cur x => if cur.val < x.val then x else cur) b

/-! Helper lemmas about `Dec`. -/

theorem pow_shift_div {f m : Nat} (h : f ≤ m) (c : ℚ) :
    c * (10 : ℚ) ^ (m - f) / (10 : ℚ) ^ m = c / (10 : ℚ) ^ f := by
  have hm : (10 : ℚ) ^ m = 10 ^ (m - f) * 10 ^ f := by
    rw [← pow_add, Nat.sub_add_cancel h]
  rw [hm, mul_comm c _, mul_div_mul_left _ _ (pow_ne_zero _ (by norm_num))]

theorem Dec.add_val (a b : Dec) : (a.add b).val = a.val + b.val := by
  simp only [Dec.add, Dec.val_eq]
  push_cast
  rw [add_div, pow_shift_div (le_max_left a.frac b.frac),
    pow_shift_div (le_max_right a.frac b.frac)]

theorem Dec.quantize_frac (d : Dec) (f : Nat) : (d.quantize f).frac = f := by
  rw [Dec.quantize]
  split <;> rfl

theorem Dec.val_mul_pow (d : Dec) : d.val * (10 : ℚ) ^ d.frac = (d.coeff : ℚ) := by
  rw [Dec.val_eq, div_mul_cancel₀ _ (pow_ne_zero _ (by norm_num))]

theorem Dec.quantize_val_of_le {d : Dec} {f : Nat} (h : d.frac ≤ f) :
    (d.quantize f).val = d.val := by
  rw [Dec.quantize, if_pos h]
  simp only [Dec.val_eq]
  push_cast
  exact pow_shift_div h _

/-- Quantization is exact on values that are already representable at the
target precision. -/
theorem Dec.quantize_val_exact {d : Dec} {f : Nat} {m : ℤ}
    (hm : d.val * (10 : ℚ) ^ f = (m : ℚ)) : (d.quantize f).val = d.val := by
  by_cases h : d.frac ≤ f
  · exact Dec.quantize_val_of_le h
  · push_neg at h
    have hk : (10 : ℚ) ^ d.frac = 10 ^ (d.frac - f) * 10 ^ f := by
      rw [← pow_add, Nat.sub_add_cancel (le_of_lt h)]
    have hcoeff : (d.coeff : ℚ) = (m : ℚ) * (10 : ℚ) ^ (d.frac - f) := by
      have h1 : (d.coeff : ℚ) / 10 ^ d.frac * 10 ^ f = (m : ℚ) := by
        rw [← Dec.val_eq]; exact hm
      rw [hk, ← div_div, div_mul_cancel₀ _ (pow_ne_zero _ (by norm_num))] at h1
      rw [← h1, div_mul_cancel₀ _ (pow_ne_zero _ (by norm_num))]
    have hcz : d.coeff = m * 10 ^ (d.frac - f) := by exact_mod_cast hcoeff
    rw [Dec.quantize, if_neg (not_le.mpr h), Dec.val_eq, Dec.val_eq]
    rw [hcz, Int.mul_tdiv_cancel _ (by positivity)]
    push_cast
    rw [hk, mul_comm ((m : ℚ)) _, mul_div_mul_left _ _ (pow_ne_zero _ (by norm_num))]

/-- Truncation toward zero never drops below a lower bound that is itself
representable at the target precision (for nonnegative bounds). -/
theorem Dec.le_quantize_val {d : Dec} {f : Nat} {q : ℚ} {m : ℤ}
    (hq0 : 0 ≤ q) (hm : q * (10 : ℚ) ^ f = (m : ℚ)) (hle : q ≤ d.val) :
    q ≤ (d.quantize f).val := by
  by_cases h : d.frac ≤ f
  · rw [Dec.quantize_val_of_le h]; exact hle
  · push_neg at h
    have hposf : (0 : ℚ) < (10 : ℚ) ^ d.frac := by positivity
    have hk : (10 : ℚ) ^ d.frac = 10 ^ f * 10 ^ (d.frac - f) := by
      rw [← pow_add, Nat.add_sub_cancel' (le_of_lt h)]
    have hvq : q * (10 : ℚ) ^ d.frac ≤ (d.coeff : ℚ) := by
      have h2 : q ≤ (d.coeff : ℚ) / (10 : ℚ) ^ d.frac := by
        rw [← Dec.val_eq]; exact hle
      exact (le_div_iff₀ hposf).mp h2
    have hZ : m * 10 ^ (d.frac - f) ≤ d.coeff := by
      have : (m : ℚ) * (10 : ℚ) ^ (d.frac - f) ≤ (d.coeff : ℚ) := by
        rw [← hm]
        calc q * (10 : ℚ) ^ f * (10 : ℚ) ^ (d.frac - f)
            = q * (10 : ℚ) ^ d.frac := by rw [hk]; ring
          _ ≤ (d.coeff : ℚ) := hvq
      exact_mod_cast this
    have hc0 : (0 : ℤ) ≤ d.coeff := by
      have : (0 : ℚ) ≤ (d.coeff : ℚ) := by
        calc (0 : ℚ) ≤ q * (10 : ℚ) ^ d.frac := by positivity
          _ ≤ (d.coeff : ℚ) := hvq
      exact_mod_cast this
    have hNpos : (0 : ℤ) < 10 ^ (d.frac - f) := by positivity
    have hediv : m ≤ Int.tdiv d.coeff (10 ^ (d.frac - f)) := by
      rw [Int.tdiv_eq_ediv hc0 (le_of_lt hNpos)]
      exact (Int.le_ediv_iff_mul_le hNpos).mpr hZ
    rw [Dec.quantize, if_neg (not_le.mpr h), Dec.val_eq]
    have hq : q = (m : ℚ) / (10 : ℚ) ^ f := by
      rw [← hm, mul_div_cancel_right₀ _ (pow_ne_zero _ (by norm_num))]
    rw [hq]
    exact (div_le_div_iff_of_pos_right (by positivity)).mpr (by exact_mod_cast hediv)

/-! Order dispatch and configuration model (src/bot.py lines 174-317,
src/config.py). -/

/-- Order side; this program only ever buys (src/bot.py line 219). -/
inductive Side where
  | BUY
  | SELL
deriving DecidableEq, Repr

/-- Order time-in-force; only GTC is used (src/bot.py line 228). -/
inductive OrderType where
  | GTC
  | FOK
  | GTD
deriving DecidableEq, Repr

/-- Arguments of the order to create, mirroring `OrderArgs(token_id, price,
size, side)` of src/bot.py lines 216-221. -/
structure OrderArgs where
  token_id : String
  price : Dec
  size : Dec
  side : Side
deriving DecidableEq, Repr

/-- External trading collaborator (`ClobClient`): signing and submission are
opaque functions into abstract types `σ` (signed orders) and `ρ`
(venue responses). -/
structure ClobClient (σ ρ : Type) where
  create_order : OrderArgs → σ
  post_order : σ → OrderType → ρ

/-- Observable network-side action of one run, in the order the source
performs them. -/
inductive NetAction (σ : Type) where
  | authenticate
  | fetchOrderBook (token_id : String)
  | fetchTickSize (token_id : String)
  | create_order (args : OrderArgs)
  | post_order (signed : σ) (order_type : OrderType)

/-- Order dispatcher, translated from `place_order` in src/bot.py lines
174-234.  It returns the list of calls made on the trading collaborator
together with the returned value: in dry-run mode it only prints and returns
`None` making no collaborator call; otherwise it creates the order args,
signs via `client.create_order`, submits via `client.post_order` with GTC and
returns the response. -/
def place_order {σ ρ : Type} (client : ClobClient σ ρ) (token_id : String)
    (price : Dec) (size : Dec) (dry_run : Bool) :
    List (NetAction σ) × Option ρ :=
  if dry_run then ([], none)
  else
    let order_args : OrderArgs := ⟨token_id, price, size, Side.BUY⟩
    let signed_order := client.create_order order_args
    let response := client.post_order signed_order OrderType.GTC
    ([NetAction.create_order order_args,
      NetAction.post_order signed_order OrderType.GTC], some response)

/-- Configuration, translated from the `Config` class of src/config.py.
The float fields are modelled by the exact decimals `Decimal(str(x))` they
denote. -/
structure Config where
  HOST : String
  CHAIN_ID : Int
  PRIVATE_KEY : String
  FUNDER_ADDRESS : String
  MAX_BID_PRICE : Dec
  ORDER_SIZE : Dec
  DRY_RUN : Bool

/-- Configuration validation, translated from `Config.validate` in
src/config.py lines 26-48.  Python raises `ValueError` with the collected
error list when it is nonempty; this is modelled as returning `some errors`,
and `none` when validation passes.  `not cls.PRIVATE_KEY` is the
empty-string test. -/
def Config.validate (c : Config) : Option (List String) :=
  let e1 : List String :=
    if c.PRIVATE_KEY = "" then ["POLYMARKET_PRIVATE_KEY is not set"]
    else if c.PRIVATE_KEY.startsWith ("0x") = false then
      ["POLYMARKET_PRIVATE_KEY must start with 0x"]
    else []
  let e2 : List String :=
    if c.FUNDER_ADDRESS = "" then ["POLYMARKET_FUNDER_ADDRESS is not set"]
    else if c.FUNDER_ADDRESS.startsWith ("0x") = false then
      ["POLYMARKET_FUNDER_ADDRESS must start with 0x"]
    else []
  let e3 : List String :=
    if c.MAX_BID_PRICE.val ≤ 0 then ["MAX_BID_PRICE must be positive"] else []
  let e4 : List String :=
    if c.ORDER_SIZE.val ≤ 0 then ["ORDER_SIZE must be positive"] else []
  let errors := e1 ++ e2 ++ e3 ++ e4
  if errors.isEmpty then none else some errors

/-- Command-line arguments of src/bot.py lines 20-71: `--token-id`
(required), the `--dry-run` / `--no-dry-run` flags, and optional
`--max-price` and `--size` overrides. -/
structure Args where
  token_id : String
  dry_run : Bool
  no_dry_run : Bool
  max_price : Option Dec
  size : Option Dec

/-- External world of one run: whether authentication succeeds, the order
book (None models a transport failure), the parsed tick size (None models an
unavailable or unparsable tick size, which makes `Decimal(tick_size_str)`
raise), and the trading collaborator. -/
structure Env (σ ρ : Type) where
  auth : Option Unit
  order_book : Option (List Dec)
  tick_size : Option Dec
  client : ClobClient σ ρ

/-- Main entry point, translated from `main` in src/bot.py lines 237-317.
It validates the configuration first and exits 1 before any network action
on failure; then resolves settings (CLI overrides config), authenticates,
reads the best bid and the tick size, computes the bid decision, and places
the order unless the decision is `None`.  Any failure inside the try block
exits 1; both the no-order outcome and a completed run exit 0.  The result
is the exit code paired with the network actions performed. -/
def mainRun {σ ρ : Type} (config : Config) (args : Args) (env : Env σ ρ) :
    Nat × List (NetAction σ) :=
  match Config.validate config with
  | some _ => (1, [])
  | none =>
    let max_price := args.max_price.getD config.MAX_BID_PRICE
    let order_size := args.size.getD config.ORDER_SIZE
    let dry_run := if args.no_dry_run then false
      else if args.dry_run then true else config.DRY_RUN
    match env.auth with
    | none => (1, [NetAction.authenticate])
    | some _ =>
      match env.order_book with
      | none => (1, [NetAction.authenticate,
          NetAction.fetchOrderBook args.token_id])
      | some bids =>
        let best_bid := get_best_bid bids
        match env.tick_size with
        | none => (1, [NetAction.authenticate,
            NetAction.fetchOrderBook args.token_id,
            NetAction.fetchTickSize args.token_id])
        | some tick_size =>
          let reads := [NetAction.authenticate,
            NetAction.fetchOrderBook args.token_id,
            NetAction.fetchTickSize args.token_id]
          match calculate_new_bid best_bid tick_size max_price with
          | none => (0, reads)
          | some new_bid =>
            let result := place_order env.client args.token_id new_bid
              order_size dry_run
            (0, reads ++ result.1)

/-! Claim theorems. -/

theorem calculate_new_bid_def (bb tick mp : Dec) :
    calculate_new_bid bb tick mp =
      if mp.val < ((bb.add tick).quantize tick.frac).val then none
      else if mp.val ≤ bb.val then none
      else some ((bb.add tick).quantize tick.frac) := rfl

/-- C1: for every best_bid, tick_size and max_price, if `calculate_new_bid`
returns a price rather than the no-bid result, that price is at most
max_price: the configured ceiling is never exceeded by a returned price. -/
theorem claim_C1_ceiling_never_exceeded (bb tick mp p : Dec)
    (h : calculate_new_bid bb tick mp = some p) : p.val ≤ mp.val := by
  rw [calculate_new_bid_def] at h
  split_ifs at h with h1 h2
  cases Option.some.inj h
  exact not_lt.mp h1

theorem claim_C1_witness :
    calculate_new_bid ⟨0, 1⟩ ⟨1, 3⟩ ⟨5, 2⟩ = some ⟨1, 3⟩ ∧
      (Dec.mk 1 3).val ≤ (Dec.mk 5 2).val :=
  ⟨by decide, claim_C1_ceiling_never_exceeded ⟨0, 1⟩ ⟨1, 3⟩ ⟨5, 2⟩ ⟨1, 3⟩ (by decide)⟩

/-- C2 (counterexample): the claim that every returned price is an integer
multiple of tick_size fails for a tick size that is not a power of ten:
with best_bid 0.001, tick_size 0.002, max_price 0.05 the function returns
0.003, which is not an integer multiple of 0.002. -/
theorem claim_C2_counterexample :
    0 < (Dec.mk 2 3).val ∧
      calculate_new_bid ⟨1, 3⟩ ⟨2, 3⟩ ⟨5, 2⟩ = some ⟨3, 3⟩ ∧
      ¬ ∃ m : ℤ, (Dec.mk 3 3).val = (m : ℚ) * (Dec.mk 2 3).val := by
  refine ⟨by decide, by decide, ?_⟩
  rintro ⟨m, hm⟩
  rw [Dec.val_eq, Dec.val_eq] at hm
  have h3 : (3 : ℚ) = (m : ℚ) * 2 := by
    field_simp at hm
    linarith
  have h4 : (3 : ℤ) = m * 2 := by exact_mod_cast h3
  omega

/-- C2 (amended): every returned price is exactly representable at the tick
size's decimal precision, i.e. an integer multiple of `10 ^ (-d)` where `d`
is the tick size's number of fractional digits; when the tick size's
coefficient is 1 (a power-of-ten tick such as 0.001), the price is an
integer multiple of the tick size itself. -/
theorem claim_C2_price_at_tick_precision (bb tick mp p : Dec)
    (h : calculate_new_bid bb tick mp = some p) :
    (∃ m : ℤ, p.val = (m : ℚ) / (10 : ℚ) ^ tick.frac) ∧
      (tick.coeff = 1 → ∃ m : ℤ, p.val = (m : ℚ) * tick.val) := by
  have hp : p = (bb.add tick).quantize tick.frac := by
    rw [calculate_new_bid_def] at h
    split_ifs at h
    exact (Option.some.inj h).symm
  have hfrac : p.frac = tick.frac := by rw [hp]; exact Dec.quantize_frac _ _
  constructor
  · exact ⟨p.coeff, by rw [Dec.val_eq, hfrac]⟩
  · intro htc
    refine ⟨p.coeff, ?_⟩
    rw [Dec.val_eq p, hfrac, Dec.val_eq tick, htc]
    push_cast
    ring

theorem claim_C2_witness :
    calculate_new_bid ⟨0, 1⟩ ⟨1, 3⟩ ⟨5, 2⟩ = some ⟨1, 3⟩ ∧
      ((∃ m : ℤ, (Dec.mk 1 3).val = (m : ℚ) / (10 : ℚ) ^ (Dec.mk 1 3).frac) ∧
        ((Dec.mk 1 3).coeff = 1 →
          ∃ m : ℤ, (Dec.mk 1 3).val = (m : ℚ) * (Dec.mk 1 3).val)) :=
  ⟨by decide, claim_C2_price_at_tick_precision ⟨0, 1⟩ ⟨1, 3⟩ ⟨5, 2⟩ ⟨1, 3⟩ (by decide)⟩

/-- C3 (counterexample): the claim fails when max_price is not itself on the
tick grid between best_bid and best_bid + tick_size: with best_bid 0.001
(an integer multiple of tick_size 0.001, and strictly below max_price
0.0015) the function returns the no-bid result, because the candidate
0.002 exceeds the ceiling. -/
theorem claim_C3_counterexample :
    0 < (Dec.mk 1 3).val ∧
      (∃ k : ℤ, (Dec.mk 1 3).val = (k : ℚ) * (Dec.mk 1 3).val) ∧
      (Dec.mk 1 3).val < (Dec.mk 15 4).val ∧
      calculate_new_bid ⟨1, 3⟩ ⟨1, 3⟩ ⟨15, 4⟩ = none :=
  ⟨by decide, ⟨1, by push_cast; ring⟩, by decide, by decide⟩

/-- C3 (amended): for every positive tick_size and every best_bid and
max_price that are both integer multiples of tick_size, with
best_bid < max_price, `calculate_new_bid` returns a price that is strictly
greater than best_bid, at most best_bid + tick_size, and an exact integer
multiple of tick_size. -/
theorem claim_C3_one_tick_improvement (bb tick mp : Dec) (ht : 0 < tick.val)
    (hbb : ∃ k : ℤ, bb.val = (k : ℚ) * tick.val)
    (hmp : ∃ j : ℤ, mp.val = (j : ℚ) * tick.val)
    (hlt : bb.val < mp.val) :
    ∃ p, calculate_new_bid bb tick mp = some p ∧
      bb.val < p.val ∧ p.val ≤ bb.val + tick.val ∧
      ∃ m : ℤ, p.val = (m : ℚ) * tick.val := by
  obtain ⟨k, hk⟩ := hbb
  obtain ⟨j, hj⟩ := hmp
  have hcval : (bb.add tick).val = bb.val + tick.val := Dec.add_val bb tick
  have hexact : (bb.add tick).val * (10 : ℚ) ^ tick.frac =
      (((k + 1) * tick.coeff : ℤ) : ℚ) := by
    rw [hcval, hk]
    push_cast
    calc ((k : ℚ) * tick.val + tick.val) * 10 ^ tick.frac
        = ((k : ℚ) + 1) * (tick.val * 10 ^ tick.frac) := by ring
      _ = ((k : ℚ) + 1) * tick.coeff := by rw [Dec.val_mul_pow]
  have hq : ((bb.add tick).quantize tick.frac).val = (bb.add tick).val :=
    Dec.quantize_val_exact hexact
  have hkj : k < j := by
    have h1 : (k : ℚ) * tick.val < (j : ℚ) * tick.val := by
      rw [← hk, ← hj]; exact hlt
    exact_mod_cast (mul_lt_mul_right ht).mp h1
  have hle : ((bb.add tick).quantize tick.frac).val ≤ mp.val := by
    rw [hq, hcval, hk, hj]
    have h2 : ((k : ℚ) + 1) ≤ (j : ℚ) := by
      exact_mod_cast Int.add_one_le_iff.mpr hkj
    calc (k : ℚ) * tick.val + tick.val = ((k : ℚ) + 1) * tick.val := by ring
      _ ≤ (j : ℚ) * tick.val := mul_le_mul_of_nonneg_right h2 (le_of_lt ht)
  refine ⟨(bb.add tick).quantize tick.frac, ?_, ?_, ?_, ?_⟩
  · rw [calculate_new_bid_def, if_neg (not_lt.mpr hle), if_neg (not_le.mpr hlt)]
  · rw [hq, hcval]; linarith
  · rw [hq, hcval]
  · exact ⟨k + 1, by rw [hq, hcval, hk]; push_cast; ring⟩

theorem claim_C3_witness :
    0 < (Dec.mk 1 3).val ∧
      (Dec.mk 2 3).val < (Dec.mk 3 3).val ∧
      ∃ p, calculate_new_bid ⟨2, 3⟩ ⟨1, 3⟩ ⟨3, 3⟩ = some p ∧
        (Dec.mk 2 3).val < p.val ∧
        p.val ≤ (Dec.mk 2 3).val + (Dec.mk 1 3).val ∧
        ∃ m : ℤ, p.val = (m : ℚ) * (Dec.mk 1 3).val :=
  ⟨by decide, by decide,
    claim_C3_one_tick_improvement ⟨2, 3⟩ ⟨1, 3⟩ ⟨3, 3⟩ (by decide)
      ⟨2, by rw [Dec.val_eq, Dec.val_eq]; push_cast; ring⟩
      ⟨3, by rw [Dec.val_eq, Dec.val_eq]; push_cast; ring⟩ (by decide)⟩

/-- C4: for every best_bid at or above max_price (and any positive
tick_size), `calculate_new_bid` returns the no-bid result; no price is ever
returned when the market has already reached or exceeded the ceiling. -/
theorem claim_C4_no_bid_at_or_above_ceiling (bb tick mp : Dec)
    (ht : 0 < tick.val) (h : mp.val ≤ bb.val) :
    calculate_new_bid bb tick mp = none := by
  rw [calculate_new_bid_def]
  split_ifs <;> rfl

theorem claim_C4_witness :
    0 < (Dec.mk 1 3).val ∧ (Dec.mk 5 2).val ≤ (Dec.mk 6 2).val ∧
      calculate_new_bid ⟨6, 2⟩ ⟨1, 3⟩ ⟨5, 2⟩ = none :=
  ⟨by decide, by decide,
    claim_C4_no_bid_at_or_above_ceiling ⟨6, 2⟩ ⟨1, 3⟩ ⟨5, 2⟩ (by decide) (by decide)⟩

/-- C5: the ceiling rejection triggers only on strict excess, so a candidate
exactly at the ceiling is allowed: with best_bid 0.049, tick_size 0.001 and
max_price 0.05 the function returns the price 0.05, and with best_bid 0.05
it returns the no-bid result. -/
theorem claim_C5_ceiling_boundary :
    (calculate_new_bid ⟨49, 3⟩ ⟨1, 3⟩ ⟨5, 2⟩).map Dec.val =
        some ((Dec.mk 5 2).val) ∧
      calculate_new_bid ⟨5, 2⟩ ⟨1, 3⟩ ⟨5, 2⟩ = none := by
  constructor <;> decide

/-- C6: the bid calculator is total: it is a function that, on every input
combination, returns either the no-bid result or a price that is exactly
representable at the tick size's decimal precision (its value times
`10 ^ tick_size.frac` is an integer); no error outcome exists. -/
theorem claim_C6_total_no_failure (bb tick mp : Dec) :
    calculate_new_bid bb tick mp = none ∨
      ∃ p, calculate_new_bid bb tick mp = some p ∧
        ∃ m : ℤ, p.val * (10 : ℚ) ^ tick.frac = (m : ℚ) := by
  rw [calculate_new_bid_def]
  split_ifs
  · exact Or.inl rfl
  · exact Or.inl rfl
  · set q := (bb.add tick).quantize tick.frac with hqdef
    refine Or.inr ⟨q, rfl, q.coeff, ?_⟩
    have hf : q.frac = tick.frac := by rw [hqdef]; exact Dec.quantize_frac _ _
    rw [← hf]
    exact Dec.val_mul_pow q

/-- C9: the bid calculator is deterministic and stateless: two calls of
`calculate_new_bid` with identical inputs yield identical outputs. -/
theorem claim_C9_deterministic (bb tick mp : Dec) :
    calculate_new_bid bb tick mp = calculate_new_bid bb tick mp := rfl

/-- C10: for every nonnegative best_bid and positive tick_size, a returned
price is at least one tick, hence strictly positive; and the empty order
book yields the best-bid sentinel 0, so the first decided bid on an empty
book is never below one tick. -/
theorem claim_C10_price_at_least_one_tick :
    (∀ bb tick mp p : Dec, 0 ≤ bb.val → 0 < tick.val →
        calculate_new_bid bb tick mp = some p →
        tick.val ≤ p.val ∧ 0 < p.val) ∧
      (get_best_bid []).val = 0 := by
  constructor
  · intro bb tick mp p hbb ht h
    rw [calculate_new_bid_def] at h
    split_ifs at h
    cases Option.some.inj h
    have hle : tick.val ≤ (bb.add tick).val := by
      rw [Dec.add_val]; linarith
    have hmain : tick.val ≤ ((bb.add tick).quantize tick.frac).val :=
      Dec.le_quantize_val (le_of_lt ht) (Dec.val_mul_pow tick) hle
    exact ⟨hmain, lt_of_lt_of_le ht hmain⟩
  · decide

theorem claim_C10_witness :
    0 ≤ (Dec.mk 0 1).val ∧ 0 < (Dec.mk 1 3).val ∧
      calculate_new_bid ⟨0, 1⟩ ⟨1, 3⟩ ⟨5, 2⟩ = some ⟨1, 3⟩ ∧
      ((Dec.mk 1 3).val ≤ (Dec.mk 1 3).val ∧ 0 < (Dec.mk 1 3).val) :=
  ⟨by decide, by decide, by decide,
    claim_C10_price_at_least_one_tick.1 ⟨0, 1⟩ ⟨1, 3⟩ ⟨5, 2⟩ ⟨1, 3⟩
      (by decide) (by decide) (by decide)⟩

/-- C7: for every token_id, price and size, `place_order` invoked with
dry_run set performs no submission action: no create-order, signing or
post-order call on the trading collaborator is made, and it returns no
acknowledgment. -/
theorem claim_C7_dry_run_never_submits (σ ρ : Type) (client : ClobClient σ ρ)
    (token_id : String) (price size : Dec) :
    place_order client token_id price size true = ([], none) := rfl

/-- C8: `Config.validate` fails exactly when the private key is missing or
does not start with 0x, or the funder address is missing or does not start
with 0x, or the maximum bid price is not positive, or the order size is not
positive; and whenever it fails, the run exits with code 1 having performed
no network action, so nothing is submitted. -/
theorem claim_C8_validate_iff_and_gates (c : Config) :
    ((Config.validate c).isSome = true ↔
      ((c.PRIVATE_KEY = "" ∨ c.PRIVATE_KEY.startsWith ("0x") = false) ∨
        (c.FUNDER_ADDRESS = "" ∨ c.FUNDER_ADDRESS.startsWith ("0x") = false) ∨
        c.MAX_BID_PRICE.val ≤ 0 ∨ c.ORDER_SIZE.val ≤ 0)) ∧
      (∀ (σ ρ : Type) (args : Args) (env : Env σ ρ),
        (Config.validate c).isSome = true → mainRun c args env = (1, [])) := by
  constructor
  · simp only [Config.validate]
    split_ifs <;> simp_all
  · intro σ ρ args env h
    obtain ⟨e, he⟩ := Option.isSome_iff_exists.mp h
    simp only [mainRun, he]

/-- Trivial trading collaborator used to instantiate the dispatcher model on
concrete inputs. -/
def unitClient : ClobClient Unit Unit := ⟨fun _ => (), fun _ _ => ()⟩

/-- Configuration with a missing private key and funder address, as when the
environment variables are unset. -/
def badConfig : Config :=
  ⟨"https://clob.polymarket.com", 137, "", "", ⟨5, 2⟩, ⟨5, 0⟩, true⟩

/-- Default command line: token id only, dry-run left to the config. -/
def defaultArgs : Args := ⟨"token", false, false, none, none⟩

/-- Concrete environment: authentication succeeds, empty order book, tick
size 0.001. -/
def defaultEnv : Env Unit Unit := ⟨some (), some [], some ⟨1, 3⟩, unitClient⟩

theorem claim_C8_witness :
    (Config.validate badConfig).isSome = true ∧
      mainRun badConfig defaultArgs defaultEnv = (1, []) :=
  ⟨by decide,
    (claim_C8_validate_iff_and_gates badConfig).2 Unit Unit defaultArgs
      defaultEnv (by decide)⟩
